import Mathlib

/-!
# Verification of the foliate static-site generator's core

Shallow embedding of the incremental-build, feed, markdown-utility and
post-processing logic of foliate (`src/foliate/cache.py`, `feed.py`,
`build.py`, `markdown_utils.py`, `postprocess.py`), with theorems settling
the specification's claims about them.

Modelling conventions:
* Filesystem state is a value (`FileSys`): `present` models `Path.exists()`
  and `mtime` models `Path.stat().st_mtime`.  Timestamps are modelled as
  integers; the source holds them in floats but only ever compares them,
  so any linearly ordered carrier is faithful.
* Python dictionaries keyed by strings become `String → Option Int`
  functions; `dict.get(k, d)` becomes `(cache k).getD d`.
* `datetime` values (always normalised to UTC by the source's
  `parse_frontmatter_date`) are modelled as integer epoch seconds; the
  civil-calendar conversion used by `strftime` is implemented below.
* External collaborators that the spec scopes out (the markdown engine,
  YAML frontmatter parsing, Jinja templating, BeautifulSoup's HTML
  parser) are either taken as explicit function parameters (`render`),
  as pre-parsed data carried by the vault model (`VaultFile.meta`,
  `VaultFile.content`), or as already-parsed trees (`HtmlForest`).
-/

set_option maxRecDepth 40000

namespace Foliate

/-! ## Build cache (`cache.py`) -/

/-- The filesystem as observed by one build pass: which paths exist and
each path's modification time (`st_mtime`). -/
structure FileSys where
  present : String → Bool
  mtime : String → Int

/-- `cache.py`: special cache key for the config file's mtime sentinel. -/
def CONFIG_MTIME_KEY : String := "__config_mtime__"

/-- `cache.py`: special cache key for the templates' mtime sentinel. -/
def TEMPLATES_MTIME_KEY : String := "__templates_mtime__"

/-- `cache.needs_rebuild(md_file, output_file, cache, force)`: force, or
missing output, or no cache entry, or a cache entry older than the
source's current mtime. -/
def needs_rebuild (fs : FileSys) (md_file output_file : String)
    (cache : String → Option Int) (force : Bool) : Bool :=
  if force then true
  else if !(fs.present output_file) then true
  else
    let md_mtime := fs.mtime md_file
    match cache md_file with
    | some t => if t ≥ md_mtime then false else true
    | none => true

/-- `cache.get_templates_mtime(vault_path)`: most recent mtime across all
template files (user overrides unioned with bundled defaults), 0 when
there are none.  The filesystem glob is modelled by the list of observed
template mtimes. -/
def get_templates_mtime (template_mtimes : List Int) : Int :=
  template_mtimes.foldl max 0

/-- `cache.check_global_deps_changed(cache, config_path, vault_path)`:
true when the config file exists and its mtime exceeds the cached config
sentinel (default 0), or when the templates' maximal mtime exceeds the
cached templates sentinel (default 0). -/
def check_global_deps_changed (cache : String → Option Int)
    (config_present : Bool) (config_mtime : Int)
    (template_mtimes : List Int) : Bool :=
  if config_present ∧ config_mtime > (cache CONFIG_MTIME_KEY).getD 0 then true
  else if get_templates_mtime template_mtimes > (cache TEMPLATES_MTIME_KEY).getD 0 then true
  else false

/-- The cache-handling part of `build._setup_build_environment`: the cache
starts empty; in incremental, non-forced mode the on-disk cache is loaded
(`loaded_cache`), and if the vault and config path are set and
`check_global_deps_changed` fires, the loaded cache is discarded and a
full rebuild is forced.  Returns the cache to use and the (possibly
updated) force flag. -/
def setup_build_cache (incremental force_rebuild : Bool)
    (loaded_cache : String → Option Int)
    (vault_present config_path_set config_present : Bool)
    (config_mtime : Int) (template_mtimes : List Int) :
    (String → Option Int) × Bool :=
  if incremental ∧ ¬ force_rebuild then
    if vault_present ∧ config_path_set ∧
        check_global_deps_changed loaded_cache config_present config_mtime template_mtimes then
      (fun _ => none, true)
    else (loaded_cache, force_rebuild)
  else (fun _ => none, force_rebuild)

/-! ## A stable sort

`list.sort(key=…, reverse=True)` in Python is a stable sort: elements
with equal keys keep their relative input order, also under `reverse`.
We model it with a stable insertion sort (`le a b` = "a may stay before
b"); any stable sorting algorithm has the same observable behaviour. -/

/-- Insert `a` into `l`, before the first element `b` with `le a b`. -/
def sInsert (le : α → α → Bool) (a : α) : List α → List α
  | [] => [a]
  | b :: l => if le a b then a :: b :: l else b :: sInsert le a l

/-- Stable insertion sort. -/
def stableSort (le : α → α → Bool) : List α → List α
  | [] => []
  | a :: l => sInsert le a (stableSort le l)

theorem mem_sInsert (le : α → α → Bool) (a x : α) (l : List α) :
    x ∈ sInsert le a l ↔ x = a ∨ x ∈ l := by
  induction l with
  | nil => simp [sInsert]
  | cons b l ih =>
    by_cases h : le a b = true
    · simp [sInsert, h]
    · simp only [sInsert, h]
      simp [ih]
      tauto

theorem mem_stableSort (le : α → α → Bool) (x : α) (l : List α) :
    x ∈ stableSort le l ↔ x ∈ l := by
  induction l with
  | nil => simp [stableSort]
  | cons a l ih => simp [stableSort, mem_sInsert, ih]

/-! ## Frontmatter values and pages (`feed.py`, `build.py`) -/

/-- A frontmatter value as far as the date logic observes it.
`fmDate t` stands for any value `parse_frontmatter_date` resolves to the
UTC datetime `t` (a `date`/`datetime` object or a well-formed ISO 8601
string — all normalised to UTC by the source); `fmMalformed` stands for a
truthy value the parser rejects (e.g. a malformed string); `fmBool` and
`fmNone` are booleans and absent keys. -/
inductive FmValue where
  | fmNone : FmValue
  | fmBool (b : Bool) : FmValue
  | fmDate (t : Int) : FmValue
  | fmMalformed : FmValue
deriving DecidableEq

/-- `feed.parse_frontmatter_date(value)`: `None` and booleans parse to
`None`; date-like values parse to their UTC datetime; malformed values
parse to `None`. -/
def parse_frontmatter_date : FmValue → Option Int
  | .fmNone => none
  | .fmBool _ => none
  | .fmDate t => some t
  | .fmMalformed => none

/-- Python truthiness of a frontmatter value: `None` and `False` are
falsy; `date`/`datetime` objects and non-empty strings are truthy. -/
def fmTruthy : FmValue → Bool
  | .fmNone => false
  | .fmBool b => b
  | .fmDate _ => true
  | .fmMalformed => true

/-- The frontmatter mapping, restricted to the keys the core reads. An
absent key is `fmNone` / `none` / `[]`. -/
structure Meta where
  public : FmValue := .fmNone
  published : FmValue := .fmNone
  date : FmValue := .fmNone
  modified : FmValue := .fmNone
  title : Option String := none
  description : Option String := none
  image : Option String := none
  tags : List String := []
deriving DecidableEq

/-- The page dictionary built by `build.create_page_object`, restricted
to the keys the claims read.  `title`/`file_mtime`/`file_modified` are
`Option`s because `feed.py` accesses them with `dict.get`. -/
structure Page where
  path : String
  title : Option String := none
  meta : Meta := {}
  body : String := ""
  html : String := ""
  published : FmValue := .fmNone
  tags : List String := []
  date : FmValue := .fmNone
  url : String := ""
  base_url : String := ""
  description : String := ""
  image : Option String := none
  file_modified : Option String := none
  file_mtime : Option Int := none
deriving DecidableEq

/-- `feed.get_published_date(page)`: the `published` frontmatter value if
it is date-like (not a boolean), else the `date` value if truthy and
parseable, else the file mtime if truthy (`datetime.fromtimestamp`
modelled as the identity on epoch seconds), else `None`. -/
def get_published_date (p : Page) : Option Int :=
  let fromPublished : Option Int :=
    match p.meta.published with
    | .fmNone => none
    | .fmBool _ => none
    | v => parse_frontmatter_date v
  match fromPublished with
  | some t => some t
  | none =>
    match (if fmTruthy p.meta.date then parse_frontmatter_date p.meta.date else none) with
    | some t => some t
    | none =>
      match p.file_mtime with
      | some m => if m ≠ 0 then some m else none
      | none => none

/-- `feed.get_modified_date(page)`: the `modified` frontmatter value if
truthy and parseable, else the file mtime if truthy, else the published
date. -/
def get_modified_date (p : Page) : Option Int :=
  match (if fmTruthy p.meta.modified then parse_frontmatter_date p.meta.modified else none) with
  | some t => some t
  | none =>
    match p.file_mtime with
    | some m => if m ≠ 0 then some m else get_published_date p
    | none => get_published_date p

/-! ## Feed classification (`feed.classify_pages`) -/

/-- The classification loop of `feed.classify_pages`, before sorting:
pages without a resolvable published date are skipped; pages published
at or after `window_start` are "new"; otherwise pages with a modified
date at or after `window_start` are "updated"; the rest are dropped. -/
def classify_raw (window_start : Int) : List Page → List Page × List Page
  | [] => ([], [])
  | p :: rest =>
    let acc := classify_raw window_start rest
    match get_published_date p with
    | none => acc
    | some published =>
      if published ≥ window_start then (p :: acc.1, acc.2)
      else
        match get_modified_date p with
        | some modified =>
          if modified ≥ window_start then (acc.1, p :: acc.2) else acc
        | none => acc

/-- Sort key of `feed.classify_pages`: `get_published_date(p) or now`. -/
def pubKey (now : Int) (p : Page) : Int := (get_published_date p).getD now

/-- Sort key of `feed.classify_pages`: `get_modified_date(p) or now`. -/
def modKey (now : Int) (p : Page) : Int := (get_modified_date p).getD now

/-- `feed.classify_pages(pages, window_days, now)`: classify against
`window_start = now - timedelta(days=window_days)` and stably sort both
lists by their respective date, descending (`reverse=True`). -/
def classify_pages (pages : List Page) (window_days now : Int) :
    List Page × List Page :=
  let window_start := now - window_days * 86400
  let acc := classify_raw window_start pages
  (stableSort (fun a b => pubKey now b ≤ pubKey now a) acc.1,
   stableSort (fun a b => modKey now b ≤ modKey now a) acc.2)

/-- "New" test of the classification loop, as a boolean on one page. -/
def isNewP (window_start : Int) (p : Page) : Bool :=
  match get_published_date p with
  | some d => d ≥ window_start
  | none => false

/-- "Updated" test of the classification loop, as a boolean on one page. -/
def isUpdP (window_start : Int) (p : Page) : Bool :=
  match get_published_date p with
  | none => false
  | some d =>
    if d ≥ window_start then false
    else
      match get_modified_date p with
      | some m => m ≥ window_start
      | none => false

theorem classify_raw_eq_filter (ws : Int) (pages : List Page) :
    classify_raw ws pages = (pages.filter (isNewP ws), pages.filter (isUpdP ws)) := by
  induction pages with
  | nil => rfl
  | cons q rest ih =>
    cases hq : get_published_date q with
    | none =>
      simp [classify_raw, ih, List.filter_cons, isNewP, isUpdP, hq]
    | some d =>
      by_cases hd : d ≥ ws
      · simp [classify_raw, ih, List.filter_cons, isNewP, isUpdP, hq, hd]
      · cases hm : get_modified_date q with
        | none =>
          simp [classify_raw, ih, List.filter_cons, isNewP, isUpdP, hq, hd, hm]
        | some m =>
          by_cases hmw : m ≥ ws
          · simp [classify_raw, ih, List.filter_cons, isNewP, isUpdP, hq, hd, hm, hmw]
          · simp [classify_raw, ih, List.filter_cons, isNewP, isUpdP, hq, hd, hm, hmw]

/-- C3: `classify_pages` drops every page without a resolvable published
date; a page is in the "new" list iff it is an input page published at
or after `now - window_days` (the boundary itself is inclusive), and in
the "updated" list iff it is an input page published strictly before
the window but modified at or after it. -/
theorem classify_pages_spec :
    ∀ (pages : List Page) (window_days now : Int) (p : Page),
    (p ∈ (classify_pages pages window_days now).1 ↔
      p ∈ pages ∧ ∃ d, get_published_date p = some d ∧
        now - window_days * 86400 ≤ d) ∧
    (p ∈ (classify_pages pages window_days now).2 ↔
      p ∈ pages ∧ ∃ d m, get_published_date p = some d ∧
        d < now - window_days * 86400 ∧
        get_modified_date p = some m ∧ now - window_days * 86400 ≤ m) ∧
    (get_published_date p = none →
      p ∉ (classify_pages pages window_days now).1 ∧
      p ∉ (classify_pages pages window_days now).2) := by
  intro pages wd now p
  have hmem1 : p ∈ (classify_pages pages wd now).1 ↔
      p ∈ pages ∧ isNewP (now - wd * 86400) p = true := by
    simp [classify_pages, mem_stableSort, classify_raw_eq_filter, List.mem_filter]
  have hmem2 : p ∈ (classify_pages pages wd now).2 ↔
      p ∈ pages ∧ isUpdP (now - wd * 86400) p = true := by
    simp [classify_pages, mem_stableSort, classify_raw_eq_filter, List.mem_filter]
  refine ⟨?_, ?_, ?_⟩
  · rw [hmem1]
    cases hq : get_published_date p with
    | none => simp [isNewP, hq]
    | some d =>
      simp [isNewP, hq]
  · rw [hmem2]
    cases hq : get_published_date p with
    | none => simp [isUpdP, hq]
    | some d =>
      cases hm : get_modified_date p with
      | none =>
        simp [isUpdP, hq, hm]
      | some m =>
        by_cases hd : d ≥ now - wd * 86400
        · simp [isUpdP, hq, hm, hd]
        · simp [isUpdP, hq, hm, hd]
          intro _ _
          omega
  · intro hq
    rw [hmem1, hmem2]
    simp [isNewP, isUpdP, hq]

/-- C1: `needs_rebuild` is true iff `force` is set, or the output is
missing, or the cache has no entry for the source, or the cached
timestamp is strictly below the source's current mtime; and it is false
when the cached timestamp equals the current mtime (ties favour the
cache). -/
theorem needs_rebuild_spec :
    ∀ (fs : FileSys) (md out : String) (cache : String → Option Int) (force : Bool),
    (needs_rebuild fs md out cache force = true ↔
      force = true ∨ fs.present out = false ∨ cache md = none ∨
        ∃ t, cache md = some t ∧ t < fs.mtime md) ∧
    (cache md = some (fs.mtime md) → force = false → fs.present out = true →
      needs_rebuild fs md out cache force = false) := by
  intro fs md out cache force
  constructor
  · cases force with
    | true => simp [needs_rebuild]
    | false =>
      cases hp : fs.present out with
      | false => simp [needs_rebuild, hp]
      | true =>
        cases hc : cache md with
        | none => simp [needs_rebuild, hp, hc]
        | some t =>
          by_cases hge : t ≥ fs.mtime md
          · simp [needs_rebuild, hp, hc, hge]
          · simp [needs_rebuild, hp, hc, hge]
            omega
  · intro h1 h2 h3
    simp [needs_rebuild, h1, h2, h3]

/-- C2: with an existing config file, `check_global_deps_changed` fires
iff the config mtime strictly exceeds the cached config sentinel
(default 0) or the maximal template mtime strictly exceeds the cached
templates sentinel; and whenever it fires during an incremental,
non-forced build with vault and config path set, the orchestrator
(`_setup_build_environment`) replaces the loaded cache by the empty
cache and forces a full rebuild, under which every page needs rebuild. -/
theorem check_global_deps_changed_spec :
    ∀ (cache loaded : String → Option Int) (config_mtime : Int)
      (tm : List Int) (fs : FileSys),
    (check_global_deps_changed cache true config_mtime tm = true ↔
      config_mtime > (cache CONFIG_MTIME_KEY).getD 0 ∨
        get_templates_mtime tm > (cache TEMPLATES_MTIME_KEY).getD 0) ∧
    (check_global_deps_changed loaded true config_mtime tm = true →
      setup_build_cache true false loaded true true true config_mtime tm =
        (fun _ => none, true) ∧
      ∀ (md out : String),
        needs_rebuild fs md out
          (setup_build_cache true false loaded true true true config_mtime tm).1
          (setup_build_cache true false loaded true true true config_mtime tm).2 = true) := by
  intro cache loaded cm tm fs
  constructor
  · by_cases h1 : cm > (cache CONFIG_MTIME_KEY).getD 0
    · simp [check_global_deps_changed, h1]
    · by_cases h2 : get_templates_mtime tm > (cache TEMPLATES_MTIME_KEY).getD 0
      · simp [check_global_deps_changed, h1, h2]
      · simp [check_global_deps_changed, h1, h2]
  · intro hchk
    have hsetup : setup_build_cache true false loaded true true true cm tm =
        (fun _ => none, true) := by
      simp [setup_build_cache, hchk]
    refine ⟨hsetup, ?_⟩
    intro md out
    rw [hsetup]
    simp [needs_rebuild]

/-- Concrete page used to exhibit the stable-sort tie behaviour: path
"Zebra", published at epoch second 100. -/
def pgZebra : Page :=
  { path := "Zebra", meta := { published := .fmDate 100 }, file_mtime := some 200 }

/-- Concrete page used to exhibit the stable-sort tie behaviour: path
"Alpha", published at the same epoch second 100. -/
def pgAlphaTie : Page :=
  { path := "Alpha", meta := { published := .fmDate 100 }, file_mtime := some 200 }

/-! ## Dates, escaping and the updates digest (`feed.py`) -/

/-- Civil date (year, month, day) of a day count since 1970-01-01 (the
standard days-to-civil algorithm, as used by `datetime`). -/
def civilFromDays (z0 : Int) : Int × Int × Int :=
  let z := z0 + 719468
  let era := Int.ediv z 146097
  let doe := z - era * 146097
  let yoe := Int.ediv (doe - Int.ediv doe 1460 + Int.ediv doe 36524 - Int.ediv doe 146096) 365
  let y := yoe + era * 400
  let doy := doe - (365 * yoe + Int.ediv yoe 4 - Int.ediv yoe 100)
  let mp := Int.ediv (5 * doy + 2) 153
  let d := doy - Int.ediv (153 * mp + 2) 5 + 1
  let m := mp + (if mp < 10 then 3 else -9)
  (y + (if m ≤ 2 then 1 else 0), m, d)

/-- English month names, as `strftime("%B")` produces in the C locale. -/
def monthName (m : Int) : String :=
  if m = 1 then "January" else if m = 2 then "February"
  else if m = 3 then "March" else if m = 4 then "April"
  else if m = 5 then "May" else if m = 6 then "June"
  else if m = 7 then "July" else if m = 8 then "August"
  else if m = 9 then "September" else if m = 10 then "October"
  else if m = 11 then "November" else "December"

/-- Zero-padded two-digit rendering, as `strftime("%d")` produces. -/
def pad2 (n : Int) : String :=
  if n < 10 then "0" ++ toString n else toString n

/-- `modified.strftime("%B %d, %Y")` on a UTC datetime given as epoch
seconds: full month name, zero-padded day, year. -/
def strftime_B_d_Y (t : Int) : String :=
  let c := civilFromDays (Int.ediv t 86400)
  monthName c.2.1 ++ " " ++ pad2 c.2.2 ++ ", " ++ toString c.1

/-- One character of `html.escape(s, quote=True)` (the default used by
`feed.generate_updates_digest` for both titles and urls). -/
def escChar (c : Char) : List Char :=
  if c = '&' then "&amp;".data
  else if c = '<' then "&lt;".data
  else if c = '>' then "&gt;".data
  else if c = '"' then "&quot;".data
  else if c = '\'' then "&#x27;".data
  else [c]

/-- `html.escape(s, quote=True)`. -/
def html_escape (s : String) : String :=
  String.mk (s.data.foldr (fun c acc => escChar c ++ acc) [])

/-- `sep.join(lines)`. -/
def joinWith (sep : String) : List String → String
  | [] => ""
  | [x] => x
  | x :: y :: xs => x ++ sep ++ joinWith sep (y :: xs)

/-- `feed.generate_updates_digest(pages, site_url)`: an HTML list with
one `<li>` per updated page carrying its escaped link and title and its
modification date rendered with `strftime("%B %d, %Y")`. -/
def generate_updates_digest (pages : List Page) (site_url : String) : String :=
  if pages.isEmpty then ""
  else
    let item := fun (page : Page) =>
      let title := html_escape (page.title.getD page.path)
      let url := html_escape (site_url ++ page.url)
      let date_str :=
        match get_modified_date page with
        | some m => strftime_B_d_Y m
        | none => ""
      "  <li><a href=\"" ++ url ++ "\">" ++ title ++ "</a> - " ++ date_str ++ "</li>"
    joinWith "\n"
      (["<p>The following pages were recently updated:</p>", "<ul>"]
        ++ pages.map item ++ ["</ul>"])

/-- Concrete updated page whose frontmatter `modified` is 2024-03-15
(epoch seconds 1710460800). -/
def pgDigest : Page :=
  { path := "TestPage", title := some "Test Page", url := "/wiki/TestPage/",
    meta := { modified := .fmDate 1710460800 } }

/-! ## Feed items (`feed.py`) -/

/-- First index of `c`, if any. -/
def findCharIdx (c : Char) : List Char → Option Nat
  | [] => none
  | x :: xs => if x = c then some 0 else (findCharIdx c xs).map (· + 1)

/-- Does `s` start with `pat`? -/
def chStarts (pat s : List Char) : Bool :=
  match pat, s with
  | [], _ => true
  | _ :: _, [] => false
  | p :: ps, c :: cs => p = c ∧ chStarts ps cs

/-- First index at which `pat` occurs, if any. -/
def findSubIdx (pat : List Char) : List Char → Option Nat
  | [] => if pat.isEmpty then some 0 else none
  | c :: rest =>
    if chStarts pat (c :: rest) then some 0
    else (findSubIdx pat rest).map (· + 1)

/-- Python's `\s` character class (the ASCII whitespace characters). -/
def pyIsSpace (c : Char) : Bool :=
  c = ' ' ∨ c = '\t' ∨ c = '\n' ∨ c = '\r' ∨ c = '\x0b' ∨ c = '\x0c'

/-- `str.strip()`. -/
def pyStrip (cs : List Char) : List Char :=
  ((cs.dropWhile pyIsSpace).reverse.dropWhile pyIsSpace).reverse

/-- Drop `<…>` tag spans, keeping text (model of `soup.get_text()`). -/
def dropTags (fuel : Nat) (cs : List Char) : List Char :=
  match fuel, cs with
  | 0, cs => cs
  | _, [] => []
  | fuel + 1, c :: rest =>
    if c = '<' then
      match findCharIdx '>' rest with
      | some j => dropTags fuel (rest.drop (j + 1))
      | none => c :: dropTags fuel rest
    else c :: dropTags fuel rest

/-- Model of the BeautifulSoup part of `feed.extract_summary`: the text
of the first `<p>` element, or of the whole document when there is no
paragraph (external HTML parser, modelled for well-formed markup). -/
def bs_first_paragraph_text (html : String) : String :=
  let cs := html.data
  let n := cs.length + 1
  match findSubIdx "<p".data cs with
  | some i =>
    let afterTag := cs.drop i
    let inner :=
      match findCharIdx '>' afterTag with
      | some j => afterTag.drop (j + 1)
      | none => []
    let content :=
      match findSubIdx "</p>".data inner with
      | some k => inner.take k
      | none => inner
    String.mk (dropTags n content)
  | none => String.mk (dropTags n cs)

/-- `feed.extract_summary(html, max_length)`: empty input yields the
empty summary; otherwise the stripped first-paragraph text, truncated
with an appended `"..."` when longer than `max_length`. -/
def extract_summary (html : String) (max_length : Nat) : String :=
  if html = "" then ""
  else
    let text := pyStrip (bs_first_paragraph_text html).data
    if text.length > max_length then String.mk (text.take max_length) ++ "..."
    else String.mk text

/-- `feed.FeedItem`. -/
structure FeedItem where
  title : String
  url : String
  content : String
  published : Int
  updated : Int
  summary : Option String
deriving DecidableEq

/-- `feed.create_feed_items(pages, site_url, full_content, max_items)`:
take the first `max_items` pages, skip those without a published date,
and build items whose content is the page's `html` field as-is (empty
when the page came from cache without re-rendering) and whose summary,
when `full_content` is false, is extracted from that same field. -/
def create_feed_items (pages : List Page) (site_url : String)
    (full_content : Bool) (max_items : Nat) : List FeedItem :=
  (pages.take max_items).filterMap fun page =>
    match get_published_date page with
    | none => none
    | some published =>
      let modified := (get_modified_date page).getD published
      let url := site_url ++ page.url
      let content := page.html
      let summary := if full_content then none else some (extract_summary content 300)
      some { title := page.title.getD page.path, url := url,
             content := if full_content then content else "",
             published := published, updated := modified, summary := summary }

/-- Concrete published page that hit the cache: its `html` is empty but
its `body` holds markdown. -/
def pgCached : Page :=
  { path := "CachedPage", title := some "Cached Page", url := "/wiki/CachedPage/",
    html := "", body := "# Heading\n\nRendered body text.", base_url := "/wiki/",
    meta := { published := .fmDate 100 }, file_mtime := some 200 }

/-- C4 (failing input): two pages with identical published dates, given
in the order `[Zebra, Alpha]`, come out of `classify_pages` in insertion
order `[Zebra, Alpha]` — the sort key is the date alone, so equal-date
pages are NOT reordered by ascending path, and the output depends on the
input permutation. -/
theorem classify_pages_tie_keeps_insertion_order :
    ((classify_pages [pgZebra, pgAlphaTie] 1 86500).1.map Page.path
        = ["Zebra", "Alpha"]) ∧
    get_published_date pgZebra = get_published_date pgAlphaTie ∧
    pgAlphaTie.path ≠ pgZebra.path ∧
    (classify_pages [pgZebra, pgAlphaTie] 1 86500).1.map Page.path ≠
      (classify_pages [pgAlphaTie, pgZebra] 1 86500).1.map Page.path := by
  refine ⟨by decide, by decide, by decide, by decide⟩

/-- C5 (failing input): for a page modified on 2024-03-15 the digest
entry renders the date as "March 15, 2024" — an English month-name
format, not the ISO `YYYY-MM-DD` form the claim (and the repository's
own test `test_uses_iso_date_format`) requires. -/
theorem generate_updates_digest_uses_month_names :
    generate_updates_digest [pgDigest] "https://example.com" =
      "<p>The following pages were recently updated:</p>\n<ul>\n  <li><a href=\"https://example.com/wiki/TestPage/\">Test Page</a> - March 15, 2024</li>\n</ul>" ∧
    strftime_B_d_Y 1710460800 ≠ "2024-03-15" := by
  exact ⟨by decide, by decide⟩

/-- C6 (failing input): a cached page (`html = ""`, non-empty `body`)
passes through `create_feed_items` with empty content in full-content
mode and an empty summary in summary mode: nothing is regenerated from
`body`. -/
theorem create_feed_items_keeps_empty_html :
    ((create_feed_items [pgCached] "https://example.com" true 10).map
        FeedItem.content = [""]) ∧
    ((create_feed_items [pgCached] "https://example.com" false 10).map
        FeedItem.summary = [some ""]) ∧
    pgCached.body ≠ "" := by
  exact ⟨by decide, by decide, by decide⟩

/-! ## Description extraction (`markdown_utils.py`)

`extract_description` applies the fixed `_DESCRIPTION_PATTERNS` regex
pipeline, collapses whitespace, picks the first paragraph of at least 50
characters, and truncates at a word boundary.  Each pattern is
implemented below as a character scanner with the exact matching
semantics of the corresponding Python regex (non-greedy spans,
MULTILINE anchors, DOTALL where the source sets it); a fuel argument
bounds recursion, with fuel `length + 1` always sufficient because each
step consumes at least one character. -/

/-- Index of the last occurrence of `c`, if any. -/
def lastCharIdx (c : Char) (l : List Char) : Option Nat :=
  match findCharIdx c l.reverse with
  | some j => some (l.length - 1 - j)
  | none => none

/-- Is the last character a newline? (used to track MULTILINE `^`). -/
def lastIsNewline (l : List Char) : Bool :=
  match l.getLast? with
  | some c => c = '\n'
  | none => false

/-- Length consumed by `\s*\n` at the start of `l` (greedy whitespace
backing up to the last newline of the run), or `none` when it cannot
match. -/
def wsNl (l : List Char) : Option Nat :=
  let ws := l.takeWhile pyIsSpace
  match lastCharIdx '\n' ws with
  | some i => some (i + 1)
  | none => none

/-- Length consumed from `cs` by the non-greedy `.*?\n---\s*\n` tail of
the frontmatter pattern (DOTALL), when it matches. -/
def fm_find_close (fuel : Nat) (cs : List Char) : Option Nat :=
  match fuel, cs with
  | 0, _ => none
  | _, [] => none
  | fuel + 1, c :: rest =>
    if c = '\n' ∧ chStarts "---".data rest then
      match wsNl (rest.drop 3) with
      | some k => some (1 + 3 + k)
      | none => (fm_find_close fuel rest).map (· + 1)
    else (fm_find_close fuel rest).map (· + 1)

/-- `re.sub(r"^---\s*\n.*?\n---\s*\n", "", s, flags=DOTALL)`: without
MULTILINE the `^` anchors to the start of the string only. -/
def sub_frontmatter (cs : List Char) : List Char :=
  if chStarts "---".data cs then
    match wsNl (cs.drop 3) with
    | some k =>
      match fm_find_close (cs.length + 1) (cs.drop (3 + k)) with
      | some q => cs.drop (3 + k + q)
      | none => cs
    | none => cs
  else cs

/-- `re.sub(opn + ".*?" + cls, "", s, flags=DOTALL)`: at each opening
token, remove through the nearest closing token (fenced code blocks and
display math). -/
def sub_delim (fuel : Nat) (opn cls : List Char) (cs : List Char) : List Char :=
  match fuel, cs with
  | 0, cs => cs
  | _, [] => []
  | fuel + 1, c :: rest =>
    if chStarts opn (c :: rest) then
      let after := (c :: rest).drop opn.length
      match findSubIdx cls after with
      | some i => sub_delim fuel opn cls (after.drop (i + cls.length))
      | none => c :: sub_delim fuel opn cls rest
    else c :: sub_delim fuel opn cls rest

/-- `re.sub(o + "[^c]+" + c, "", s)` for one-character delimiters
(inline code, inline math, HTML tags): a non-empty span of characters
other than the closing one. -/
def sub_span (fuel : Nat) (o c : Char) (cs : List Char) : List Char :=
  match fuel, cs with
  | 0, cs => cs
  | _, [] => []
  | fuel + 1, x :: rest =>
    if x = o then
      match findCharIdx c rest with
      | some 0 => x :: sub_span fuel o c rest
      | some (j + 1) => sub_span fuel o c (rest.drop (j + 2))
      | none => x :: sub_span fuel o c rest
    else x :: sub_span fuel o c rest

/-- `re.sub(oo + "([^c]+)" + cc, "\1", s)` for doubled delimiters
(wikilinks `[[…]]`, bold `**…**`, `__…__`): the span survives, the
delimiters go. -/
def sub_pair (fuel : Nat) (o c : Char) (cs : List Char) : List Char :=
  match fuel, cs with
  | 0, cs => cs
  | _, [] => []
  | fuel + 1, x :: rest =>
    if x = o ∧ chStarts [o] rest then
      let body := rest.drop 1
      match findCharIdx c body with
      | some 0 => x :: sub_pair fuel o c rest
      | some (j + 1) =>
        let after := body.drop (j + 1)
        if chStarts [c, c] after then
          body.take (j + 1) ++ sub_pair fuel o c (after.drop 2)
        else x :: sub_pair fuel o c rest
      | none => x :: sub_pair fuel o c rest
    else x :: sub_pair fuel o c rest

/-- `re.sub(d + "([^d]+)" + d, "\1", s)` for single delimiters (italic
`*…*` and `_…_`). -/
def sub_single (fuel : Nat) (d : Char) (cs : List Char) : List Char :=
  match fuel, cs with
  | 0, cs => cs
  | _, [] => []
  | fuel + 1, x :: rest =>
    if x = d then
      match findCharIdx d rest with
      | some 0 => x :: sub_single fuel d rest
      | some (j + 1) => rest.take (j + 1) ++ sub_single fuel d (rest.drop (j + 2))
      | none => x :: sub_single fuel d rest
    else x :: sub_single fuel d rest

/-- `re.sub(r"\[([^\]]+)\]\(([^\)]+)\)", "\1", s)`: markdown links keep
their text, the url part is removed. -/
def sub_links (fuel : Nat) (cs : List Char) : List Char :=
  match fuel, cs with
  | 0, cs => cs
  | _, [] => []
  | fuel + 1, x :: rest =>
    if x = '[' then
      match findCharIdx ']' rest with
      | some 0 => x :: sub_links fuel rest
      | some (j + 1) =>
        let txt := rest.take (j + 1)
        match rest.drop (j + 2) with
        | '(' :: a2 =>
          match findCharIdx ')' a2 with
          | some 0 => x :: sub_links fuel rest
          | some (k + 1) => txt ++ sub_links fuel (a2.drop (k + 2))
          | none => x :: sub_links fuel rest
        | _ => x :: sub_links fuel rest
      | none => x :: sub_links fuel rest
    else x :: sub_links fuel rest

/-- Index of the first `]` immediately followed by `(`, scanning no
further than the end of the line (the pattern has no DOTALL, so `.`
cannot cross a newline). -/
def findImgMid : List Char → Option Nat
  | [] => none
  | c :: rest =>
    if c = '\n' then none
    else if c = ']' ∧ chStarts ['('] rest then some 0
    else (findImgMid rest).map (· + 1)

/-- First index of `t` on the current line, if any. -/
def findCharNoNl (t : Char) : List Char → Option Nat
  | [] => none
  | c :: rest =>
    if c = '\n' then none
    else if c = t then some 0
    else (findCharNoNl t rest).map (· + 1)

/-- `re.sub(r"!\[.*?\]\(.*?\)", "", s)`: images are removed whole. -/
def sub_images (fuel : Nat) (cs : List Char) : List Char :=
  match fuel, cs with
  | 0, cs => cs
  | _, [] => []
  | fuel + 1, x :: rest =>
    if x = '!' ∧ chStarts ['['] rest then
      let body := rest.drop 1
      match findImgMid body with
      | some j =>
        match findCharNoNl ')' (body.drop (j + 2)) with
        | some k => sub_images fuel ((body.drop (j + 2)).drop (k + 1))
        | none => x :: sub_images fuel rest
      | none => x :: sub_images fuel rest
    else x :: sub_images fuel rest

/-- `re.sub(r"^#+\s+", "", s, flags=MULTILINE)`: at a line start, a run
of `#` followed by at least one whitespace character (the greedy `\s+`
may consume newlines). -/
def sub_headers (fuel : Nat) (lineStart : Bool) (cs : List Char) : List Char :=
  match fuel, cs with
  | 0, cs => cs
  | _, [] => []
  | fuel + 1, c :: rest =>
    if lineStart ∧ c = '#' then
      let after := rest.dropWhile (· = '#')
      let ws := after.takeWhile pyIsSpace
      if ws.isEmpty then c :: sub_headers fuel false rest
      else sub_headers fuel (lastIsNewline ws) (after.drop ws.length)
    else c :: sub_headers fuel (c == '\n') rest

/-- `re.sub(r"^>\s*", "", s, flags=MULTILINE)`: blockquote markers with
their (possibly empty, possibly newline-spanning) whitespace. -/
def sub_blockquote (fuel : Nat) (lineStart : Bool) (cs : List Char) : List Char :=
  match fuel, cs with
  | 0, cs => cs
  | _, [] => []
  | fuel + 1, c :: rest =>
    if lineStart ∧ c = '>' then
      let ws := rest.takeWhile pyIsSpace
      sub_blockquote fuel (lastIsNewline ws) (rest.drop ws.length)
    else c :: sub_blockquote fuel (c == '\n') rest

/-- The `[-*_]` character class of the horizontal-rule pattern. -/
def isHruleChar (c : Char) : Bool := c = '-' ∨ c = '*' ∨ c = '_'

/-- `re.sub(r"^[-*_]{3,}\s*$", "", s, flags=MULTILINE)`: a line-start
run of three or more rule characters, then whitespace up to an
end-of-line (`$` is zero-width: a final newline survives). -/
def sub_hrule (fuel : Nat) (lineStart : Bool) (cs : List Char) : List Char :=
  match fuel, cs with
  | 0, cs => cs
  | _, [] => []
  | fuel + 1, c :: rest =>
    if lineStart ∧ isHruleChar c then
      let run := (c :: rest).takeWhile isHruleChar
      if run.length ≥ 3 then
        let after := (c :: rest).drop run.length
        let ws := after.takeWhile pyIsSpace
        if (after.drop ws.length).isEmpty then after.drop ws.length
        else
          match lastCharIdx '\n' ws with
          | some i => sub_hrule fuel (lastIsNewline (ws.take i)) (after.drop i)
          | none => c :: sub_hrule fuel false rest
      else c :: sub_hrule fuel false rest
    else c :: sub_hrule fuel (c == '\n') rest

/-- `re.sub(r"\s+", " ", s)`: collapse every whitespace run to a single
space. -/
def collapseWs : List Char → List Char
  | [] => []
  | c :: rest =>
    let r := collapseWs rest
    if pyIsSpace c then
      match r with
      | ' ' :: _ => r
      | _ => ' ' :: r
    else c :: r

/-- `s.split(sep)` for a non-empty separator (empty pieces kept). -/
def splitOnSub (fuel : Nat) (sep : List Char) (cs : List Char) : List (List Char) :=
  match fuel with
  | 0 => [cs]
  | fuel + 1 =>
    match findSubIdx sep cs with
    | some i => cs.take i :: splitOnSub fuel sep (cs.drop (i + sep.length))
    | none => [cs]

/-- The `_DESCRIPTION_PATTERNS` pipeline, in source order: frontmatter,
fenced code, inline code, images, links, wikilinks, headers, bold and
italic (both `*` and `_`), blockquotes, horizontal rules, HTML tags,
display math, inline math. -/
def desc_cleanup (cs : List Char) : List Char :=
  let bt := Char.ofNat 96
  let c1 := sub_frontmatter cs
  let c2 := sub_delim (c1.length + 1) "```".data "```".data c1
  let c3 := sub_span (c2.length + 1) bt bt c2
  let c4 := sub_images (c3.length + 1) c3
  let c5 := sub_links (c4.length + 1) c4
  let c6 := sub_pair (c5.length + 1) '[' ']' c5
  let c7 := sub_headers (c6.length + 1) true c6
  let c8 := sub_pair (c7.length + 1) '*' '*' c7
  let c9 := sub_single (c8.length + 1) '*' c8
  let c10 := sub_pair (c9.length + 1) '_' '_' c9
  let c11 := sub_single (c10.length + 1) '_' c10
  let c12 := sub_blockquote (c11.length + 1) true c11
  let c13 := sub_hrule (c12.length + 1) true c12
  let c14 := sub_span (c13.length + 1) '<' '>' c13
  let c15 := sub_delim (c14.length + 1) "$$".data "$$".data c14
  sub_span (c15.length + 1) '$' '$' c15

/-- Paragraphs: split on blank lines, strip each, keep non-empty ones. -/
def split_paragraphs (cs : List Char) : List (List Char) :=
  ((splitOnSub (cs.length + 1) ['\n', '\n'] cs).map pyStrip).filter
    (fun p => ¬ p.isEmpty)

/-- First paragraph of at least 50 characters, else the first paragraph,
else empty. -/
def select_paragraph (cs : List Char) : List Char :=
  let paragraphs := split_paragraphs cs
  match paragraphs.find? (fun p => p.length ≥ 50) with
  | some p => p
  | none => paragraphs.headD []

/-- Python slice `xs[:n]`, including the negative-index semantics:
`xs[:-k]` keeps all but the last `k` elements. -/
def pySliceTake (n : Int) (xs : List Char) : List Char :=
  if 0 ≤ n then xs.take n.toNat else xs.take (xs.length - n.natAbs)

/-- `s.rsplit(" ", 1)[0]`: everything before the last space, or the
whole string when there is none. -/
def rsplitSpaceHead (xs : List Char) : List Char :=
  match lastCharIdx ' ' xs with
  | some i => xs.take i
  | none => xs

/-- The truncation step: when the content exceeds `max_length`, cut at
`max_length - 3` (Python slice), back up to the last space, and append
`"..."`. -/
def truncate_desc (max_length : Int) (content : List Char) : List Char :=
  if (content.length : Int) > max_length then
    rsplitSpaceHead (pySliceTake (max_length - 3) content) ++ "...".data
  else content

/-- `markdown_utils.extract_description(markdown_content, max_length)`. -/
def extract_description (markdown_content : String) (max_length : Int) : String :=
  if markdown_content = "" then ""
  else
    String.mk (truncate_desc max_length
      (select_paragraph (pyStrip (collapseWs (desc_cleanup markdown_content.data)))))

/-- Does `s` end with `pat`? -/
def strEndsWith (s pat : String) : Bool :=
  chStarts pat.data.reverse s.data.reverse

/-- `markdown_utils.extract_first_image`, first scan: the url of the
first `![alt](url)` markdown image. -/
def find_md_image (fuel : Nat) (cs : List Char) : Option (List Char) :=
  match fuel, cs with
  | 0, _ => none
  | _, [] => none
  | fuel + 1, c :: rest =>
    if c = '!' ∧ chStarts ['['] rest then
      let body := rest.drop 1
      match findCharIdx ']' body with
      | some j =>
        match body.drop (j + 1) with
        | '(' :: a2 =>
          match findCharIdx ')' a2 with
          | some 0 => find_md_image fuel rest
          | some (k + 1) => some (a2.take (k + 1))
          | none => find_md_image fuel rest
        | _ => find_md_image fuel rest
      | none => find_md_image fuel rest
    else find_md_image fuel rest

/-- Is `c` one of the two quote characters of the `<img>` pattern? -/
def isQuote (c : Char) : Bool := c = '"' ∨ c = '\''

/-- Try to match `src=["']([^"']+)["']` at offset `j` of the tag body. -/
def try_src_at (seg : List Char) (j : Nat) : Option (List Char) :=
  let after := seg.drop j
  if chStarts "src=".data after then
    match after.drop 4 with
    | q :: urlrest =>
      if isQuote q then
        let url := urlrest.takeWhile (fun c => ¬ isQuote c)
        if url.isEmpty then none
        else if url.length < urlrest.length then some url else none
      else none
    | [] => none
  else none

/-- Greedy `[^>]+` of the `<img…>` pattern: candidate offsets from the
longest span of non-`>` characters downwards, first full match wins. -/
def scan_src_desc (seg : List Char) : Nat → Option (List Char)
  | 0 => none
  | j + 1 =>
    match try_src_at seg (j + 1) with
    | some url => some url
    | none => scan_src_desc seg j

/-- `markdown_utils.extract_first_image`, second scan: the url of the
first `<img … src="…">` HTML image. -/
def find_html_image (fuel : Nat) (cs : List Char) : Option (List Char) :=
  match fuel, cs with
  | 0, _ => none
  | _, [] => none
  | fuel + 1, c :: rest =>
    if c = '<' ∧ chStarts "img".data rest then
      let seg := rest.drop 3
      match scan_src_desc seg (seg.takeWhile (· ≠ '>')).length with
      | some url => some url
      | none => find_html_image fuel rest
    else find_html_image fuel rest

/-- `markdown_utils.extract_first_image(markdown_content)`: the first
markdown image's url, else the first HTML image's `src`, else `None` —
the markdown scan always wins, even against an earlier HTML image. -/
def extract_first_image (markdown_content : String) : Option String :=
  if markdown_content = "" then none
  else
    let cs := markdown_content.data
    match find_md_image (cs.length + 1) cs with
    | some url => some (String.mk url)
    | none => (find_html_image (cs.length + 1) cs).map String.mk

theorem length_pySliceTake_le (n : Int) (xs : List Char) (h : 0 ≤ n) :
    (pySliceTake n xs).length ≤ n.toNat := by
  unfold pySliceTake
  rw [if_pos h]
  simp [List.length_take]

theorem length_rsplitSpaceHead_le (xs : List Char) :
    (rsplitSpaceHead xs).length ≤ xs.length := by
  unfold rsplitSpaceHead
  cases h : lastCharIdx ' ' xs with
  | none => exact le_refl _
  | some i => simp [List.length_take]

theorem length_truncate_desc_le (ml : Int) (content : List Char) (h : 3 ≤ ml) :
    (truncate_desc ml content).length ≤ ml.toNat := by
  unfold truncate_desc
  split
  · rename_i hgt
    rw [List.length_append]
    have h1 := length_rsplitSpaceHead_le (pySliceTake (ml - 3) content)
    have h2 := length_pySliceTake_le (ml - 3) content (by omega)
    have h3 : ("...".data).length = 3 := rfl
    omega
  · rename_i hle
    omega

/-- The concrete input of the spec's determinism property. -/
def descTestInput : String :=
  "# Title\n\nThis is a sufficiently long opening paragraph used for testing extraction logic here."

/-- C9 (amended): for `max_length ≥ 3` the extracted description never
exceeds `max_length` (over the cut at `max_length - 3`, the back-up to
the last space, and the appended `"..."`); and on the spec's concrete
input the result is the opening paragraph (preceded by the title text,
whose `#` marker alone is stripped), 91 characters, without a
truncation ellipsis. -/
theorem extract_description_spec :
    (∀ (md : String) (ml : Int), 3 ≤ ml →
      (extract_description md ml).length ≤ ml.toNat) ∧
    extract_description descTestInput 160 =
      "Title This is a sufficiently long opening paragraph used for testing extraction logic here." ∧
    (extract_description descTestInput 160).length ≤ 160 ∧
    strEndsWith (extract_description descTestInput 160) "..." = false := by
  refine ⟨?_, by decide, by decide, by decide⟩
  intro md ml h
  unfold extract_description
  split
  · simp [String.length]
  · have := length_truncate_desc_le ml
      (select_paragraph (pyStrip (collapseWs (desc_cleanup md.data)))) h
    simpa [String.length] using this

/-- C9 (counterexample): with `max_length = 2` (below the `"..."`
overhead) the result has 12 characters, exceeding `max_length` — the
claimed bound fails for every `max_length < 3` because Python's
`content[:max_length - 3]` is a negative-index slice there. -/
theorem extract_description_exceeds_tiny_max :
    extract_description "AAAAAAAAAA" 2 = "AAAAAAAAA..." ∧
    ¬ (extract_description "AAAAAAAAAA" 2).length ≤ 2 := by
  exact ⟨by decide, by decide⟩

/-! ## Post-processing (`postprocess.py`) -/

/-- Does `s` start with `pat`? -/
def strStarts (s pat : String) : Bool := chStarts pat.data s.data

/-- Character-level core of `postprocess.extract_wiki_path(href,
wiki_prefix)`: empty href yields `None`; with a prefix, the href must
start with `/prefix/`, which is removed; with an empty prefix, the href
must start with `/` but not `//`, and the leading slash is removed; one
trailing slash is removed; an empty remainder yields `None`. -/
def extract_wiki_path_chars (href wp : List Char) : Option (List Char) :=
  if href.isEmpty then none
  else
    let pathOpt : Option (List Char) :=
      if ¬ wp.isEmpty then
        let pre := '/' :: (wp ++ ['/'])
        if chStarts pre href then some (href.drop pre.length) else none
      else
        if ¬ chStarts ['/'] href ∨ chStarts ['/', '/'] href then none
        else some (href.drop 1)
    match pathOpt with
    | none => none
    | some p =>
      let p2 :=
        match p.getLast? with
        | some c => if c = '/' then p.dropLast else p
        | none => p
      if p2.isEmpty then none else some p2

/-- `postprocess.extract_wiki_path(href, wiki_prefix)`. -/
def extract_wiki_path (href wiki_pre : String) : Option String :=
  match extract_wiki_path_chars href.data wiki_pre.data with
  | some p => some (String.mk p)
  | none => none

/-! The HTML trees `sanitize_wikilinks` works on.  BeautifulSoup's
parsing is external; the embedding works on the parsed tree: a node is
a text node or an element with its tag, class list, optional `href`,
and children.  `unwrap()` splices a node's children into its parent. -/

mutual
inductive HtmlNode where
  | text (s : String) : HtmlNode
  | elem (tag : String) (classes : List String) (href : Option String)
      (children : HtmlForest) : HtmlNode
inductive HtmlForest where
  | nil : HtmlForest
  | cons (head : HtmlNode) (tail : HtmlForest) : HtmlForest
end

/-- Forest concatenation (splicing unwrapped children in place). -/
def happend : HtmlForest → HtmlForest → HtmlForest
  | .nil, g => g
  | .cons h t, g => .cons h (happend t g)

/-- The removal condition of `sanitize_wikilinks`: an `<a>` carrying the
`wikilink` class whose extracted wiki path is present (truthy) but not
in the public-path set. -/
def isPrivateWikilink (pub : List String) (wp : String) (tag : String)
    (classes : List String) (href : Option String) : Bool :=
  (tag == "a") && classes.contains "wikilink" &&
    (match extract_wiki_path (href.getD "") wp with
     | some p => ! pub.contains p
     | none => false)

mutual
/-- The unwrap pass of `sanitize_wikilinks` on one node: a private
wikilink anchor is replaced by its (recursively processed) children;
everything else is kept.  Also counts removed links. -/
def unwrapNode (pub : List String) (wp : String) : HtmlNode → HtmlForest × Nat
  | .text s => (.cons (.text s) .nil, 0)
  | .elem tag classes href ch =>
    let r := unwrapForest pub wp ch
    if isPrivateWikilink pub wp tag classes href then (r.1, r.2 + 1)
    else (.cons (.elem tag classes href r.1) .nil, r.2)
/-- The unwrap pass on a forest. -/
def unwrapForest (pub : List String) (wp : String) : HtmlForest → HtmlForest × Nat
  | .nil => (.nil, 0)
  | .cons h t =>
    let rh := unwrapNode pub wp h
    let rt := unwrapForest pub wp t
    (happend rh.1 rt.1, rh.2 + rt.2)
end

/-- `text.replace("\$", "$")` on one text node. -/
def cleanDollarText : List Char → List Char
  | [] => []
  | '\\' :: '$' :: rest => '$' :: cleanDollarText rest
  | c :: rest => c :: cleanDollarText rest

/-- Does the text contain a literal `\$`? (the `find_all` filter). -/
def containsBackslashDollar : List Char → Bool
  | [] => false
  | '\\' :: '$' :: _ => true
  | _ :: rest => containsBackslashDollar rest

/-- Tags whose text nodes the dollar cleanup skips. -/
def isSkipTag (tag : String) : Bool :=
  tag = "script" ∨ tag = "style" ∨ tag = "code" ∨ tag = "pre"

mutual
/-- The dollar-cleanup pass on one node: replace `\$` by `$` in text
nodes whose immediate parent is not script/style/code/pre; report
whether anything was cleaned. -/
def cleanNode (parent : Option String) : HtmlNode → HtmlNode × Bool
  | .text s =>
    if (match parent with | some t => isSkipTag t | none => false) then (.text s, false)
    else if containsBackslashDollar s.data then
      (.text (String.mk (cleanDollarText s.data)), true)
    else (.text s, false)
  | .elem tag classes href ch =>
    let r := cleanForest (some tag) ch
    (.elem tag classes href r.1, r.2)
/-- The dollar-cleanup pass on a forest. -/
def cleanForest (parent : Option String) : HtmlForest → HtmlForest × Bool
  | .nil => (.nil, false)
  | .cons h t =>
    let rh := cleanNode parent h
    let rt := cleanForest parent t
    (.cons rh.1 rt.1, rh.2 || rt.2)
end

/-- `postprocess.sanitize_wikilinks(html, public_pages, wiki_prefix)`:
unwrap private wikilinks, then clean escaped dollars; returns the
document, the modified flag, the removed-link count, and the
cleaned-dollars flag. -/
def sanitize_wikilinks (doc : HtmlForest) (pub : List String) (wp : String) :
    HtmlForest × Bool × Nat × Bool :=
  let u := unwrapForest pub wp doc
  let c := cleanForest none u.1
  (c.1, (u.2 != 0) || c.2, u.2, c.2)

mutual
/-- Does a node contain (or itself be) a private-wikilink anchor? -/
def nodeHasPrivate (pub : List String) (wp : String) : HtmlNode → Bool
  | .text _ => false
  | .elem tag classes href ch =>
    isPrivateWikilink pub wp tag classes href || forestHasPrivate pub wp ch
/-- Does a forest contain a private-wikilink anchor? -/
def forestHasPrivate (pub : List String) (wp : String) : HtmlForest → Bool
  | .nil => false
  | .cons h t => nodeHasPrivate pub wp h || forestHasPrivate pub wp t
end

mutual
/-- Concatenated text content of a node. -/
def nodeText : HtmlNode → String
  | .text s => s
  | .elem _ _ _ ch => forestText ch
/-- Concatenated text content of a forest. -/
def forestText : HtmlForest → String
  | .nil => ""
  | .cons h t => nodeText h ++ forestText t
end

/-! ## Build orchestration (`build.py`)

The markdown engine (`render_markdown`) is an external collaborator and
is passed in as a function `render`; frontmatter parsing is external as
well, so a vault file carries its parsed metadata and body. -/

/-- One markdown file of the vault: its path string (`str(md_file)`),
the directory segments of its path relative to the vault
(`rel_path.parts[:-1]`), its relative path with the suffix stripped in
posix form, and its parsed frontmatter and body. -/
structure VaultFile where
  file : String
  dirParts : List String
  pagePathRaw : String
  meta : Meta
  content : String
deriving DecidableEq

/-- `build.is_path_ignored`: a file is ignored when any *directory*
segment of its relative path (never the filename) is an ignored folder
name. -/
def is_path_ignored (dirParts : List String) (ignored_folders : List String) : Bool :=
  dirParts.any fun part => ignored_folders.contains part

/-- `build.get_content_info(page_path, homepage_dir, wiki_base_url)`:
homepage content (path under `homepage_dir/`) loses that prefix and
lives at the site root; everything else keeps its path under the wiki
base url. -/
def get_content_info (page_path homepage_dir wiki_base_url : String) :
    String × String × Bool :=
  let is_homepage := strStarts page_path (homepage_dir ++ "/")
  let base_url := if is_homepage then "/" else wiki_base_url
  let adjusted :=
    if is_homepage then String.mk (page_path.data.drop (homepage_dir.length + 1))
    else page_path
  (adjusted, base_url, is_homepage)

/-- Python truthiness of the optional `single_page` argument (an empty
string is falsy). -/
def spTruthy : Option String → Bool
  | some s => ¬ s.isEmpty
  | none => false

/-- `build.iter_public_md_files`: skip ignored files; in single-page
mode skip every other page; skip pages whose `public` frontmatter is
falsy unless they are the requested single page; yield the file with
its adjusted page path and base url. -/
def iter_public_md_files (vault : List VaultFile) (ignored_folders : List String)
    (homepage_dir wiki_base_url : String) (single_page : Option String) :
    List (VaultFile × String × String) :=
  vault.filterMap fun f =>
    if is_path_ignored f.dirParts ignored_folders then none
    else
      let info := get_content_info f.pagePathRaw homepage_dir wiki_base_url
      if spTruthy single_page ∧ single_page ≠ some info.1 then none
      else if ¬ fmTruthy f.meta.public ∧
          ¬ (spTruthy single_page ∧ single_page = some info.1) then none
      else some (f, info.1, info.2.1)

/-- `datetime.fromtimestamp(mtime).strftime("%Y-%m-%d")` (the source
uses the local timezone; modelled as UTC). -/
def ymd_str (t : Int) : String :=
  let c := civilFromDays (Int.ediv t 86400)
  toString c.1 ++ "-" ++ pad2 c.2.1 ++ "-" ++ pad2 c.2.2

/-- `build.create_page_object(page_path, meta, markdown_content,
render_html, file_path, base_url)`: assembles the page dictionary; the
description falls back from frontmatter to `extract_description`, the
image from frontmatter to `extract_first_image` with relative image
paths rewritten under `/assets/`; `html` is rendered only when
`render_html` is set and is the empty string otherwise. -/
def create_page_object (render : String → String → String) (page_path : String)
    (meta : Meta) (markdown_content : String) (render_html : Bool)
    (file_mtime : Option Int) (base_url : String) : Page :=
  let page_url := base_url ++ page_path ++ "/"
  let description :=
    match meta.description with
    | some d => if ¬ d.isEmpty then d else extract_description markdown_content 160
    | none => extract_description markdown_content 160
  let image0 :=
    match meta.image with
    | some i => if ¬ i.isEmpty then some i else extract_first_image markdown_content
    | none => extract_first_image markdown_content
  let image :=
    match image0 with
    | some i =>
      if ¬ i.isEmpty ∧
          ¬ (strStarts i "/" ∨ strStarts i "http://" ∨ strStarts i "https://") then
        some ("/assets/" ++ i)
      else some i
    | none => none
  { path := page_path,
    title := some (meta.title.getD page_path),
    meta := meta,
    body := markdown_content,
    html := if render_html then render markdown_content base_url else "",
    published := meta.published,
    tags := meta.tags,
    date := meta.date,
    url := page_url,
    base_url := base_url,
    description := description,
    image := image,
    file_modified := file_mtime.map ymd_str,
    file_mtime := file_mtime }

/-- `build.process_single_md_file`: compute the output path, consult the
cache in incremental mode, and build the page with `render_html` set
exactly when a rebuild is needed; the boolean reports a rebuild. -/
def process_single_md_file (render : String → String → String) (fs : FileSys)
    (f : VaultFile) (page_path base_url wiki_dir build_dir : String)
    (build_cache : String → Option Int) (force_rebuild incremental : Bool) :
    Page × Bool :=
  let output_file :=
    if base_url = "/" then build_dir ++ "/" ++ page_path ++ "/index.html"
    else build_dir ++ "/" ++ wiki_dir ++ "/" ++ page_path ++ "/index.html"
  if incremental ∧ ¬ needs_rebuild fs f.file output_file build_cache force_rebuild then
    (create_page_object render page_path f.meta f.content false
      (some (fs.mtime f.file)) base_url, false)
  else
    (create_page_object render page_path f.meta f.content true
      (some (fs.mtime f.file)) base_url, true)

/-- `build.process_markdown_files`: every yielded (public or overridden)
file becomes a page in `public_pages`; pages with truthy `published`
frontmatter additionally form `published_pages`; the new cache maps each
processed file to its current mtime.  (The statistics counters are
logging-only and omitted.) -/
def process_markdown_files (render : String → String → String) (fs : FileSys)
    (vault : List VaultFile) (ignored_folders : List String)
    (homepage_dir wiki_base_url wiki_dir build_dir : String)
    (build_cache : String → Option Int) (force_rebuild incremental : Bool)
    (single_page : Option String) :
    List Page × List Page × List (String × Int) :=
  let entries := iter_public_md_files vault ignored_folders homepage_dir
    wiki_base_url single_page
  let public_pages := entries.map fun e =>
    (process_single_md_file render fs e.1 e.2.1 e.2.2 wiki_dir build_dir
      build_cache force_rebuild incremental).1
  (public_pages,
   public_pages.filter (fun p => fmTruthy p.meta.published),
   entries.map fun e => (e.1.file, fs.mtime e.1.file))

/-- One record of `search.json` (`build.generate_search_index`). -/
structure SearchEntry where
  title : String
  path : String
  url : String
  content : String
  published : String
  tags : List String
deriving DecidableEq

/-- `datetime.isoformat()` of a UTC datetime (epoch seconds). -/
def iso_datetime_str (t : Int) : String :=
  let c := civilFromDays (Int.ediv t 86400)
  let secs := Int.emod t 86400
  toString c.1 ++ "-" ++ pad2 c.2.1 ++ "-" ++ pad2 c.2.2 ++ "T" ++
    pad2 (Int.ediv secs 3600) ++ ":" ++ pad2 (Int.ediv (Int.emod secs 3600) 60) ++
    ":" ++ pad2 (Int.emod secs 60) ++ "+00:00"

/-- The `published` string of a search entry:
`str(published) if published else ""`, with `isoformat()` for date-like
values.  (An unparseable string value would keep its own text, which
the value model does not carry; none of the claims depends on it.) -/
def fm_published_str : FmValue → String
  | .fmNone => ""
  | .fmBool b => if b then "True" else ""
  | .fmDate t => iso_datetime_str t
  | .fmMalformed => ""

/-- `build.generate_search_index(build_dir, public_pages, base_url,
wiki_dir_name)`: one entry per public page, with the url always built
from the given (wiki) base url. -/
def generate_search_index (public_pages : List Page) (base_url : String) :
    List SearchEntry :=
  public_pages.map fun page =>
    { title := page.title.getD page.path,
      path := page.path,
      url := base_url ++ page.path ++ "/",
      content := if ¬ page.body.isEmpty then String.mk (page.body.data.take 500) else "",
      published := fm_published_str page.meta.published,
      tags := page.tags }

/-- `build.generate_sitemap(build_dir, public_pages, base_url)`: one
line per public page, always `base_url + path + "/"`. -/
def generate_sitemap (public_pages : List Page) (base_url : String) : List String :=
  public_pages.map fun page => base_url ++ page.path ++ "/"

/-- `config.base_urls["wiki"]`: `/prefix/` for a non-empty stripped
prefix, else `/`. -/
def base_urls_wiki (wiki_prefix_stripped : String) : String :=
  if wiki_prefix_stripped = "" then "/" else "/" ++ wiki_prefix_stripped ++ "/"

/-- The search-index and sitemap part of `build.generate_site_files`:
both artifacts are generated from `public_pages` with the wiki base
url. -/
def generate_site_files (public_pages : List Page) (wiki_prefix_stripped : String) :
    List SearchEntry × List String :=
  (generate_search_index public_pages (base_urls_wiki wiki_prefix_stripped),
   generate_sitemap public_pages (base_urls_wiki wiki_prefix_stripped))

/-! ## Helper lemmas for the privacy theorems -/

theorem create_page_object_meta (render : String → String → String)
    (pp : String) (meta : Meta) (md : String) (rh : Bool)
    (fm : Option Int) (bu : String) :
    (create_page_object render pp meta md rh fm bu).meta = meta := rfl

theorem process_single_meta (render : String → String → String) (fs : FileSys)
    (f : VaultFile) (pp bu wd bd : String) (cache : String → Option Int)
    (force inc : Bool) :
    (process_single_md_file render fs f pp bu wd bd cache force inc).1.meta =
      f.meta := by
  unfold process_single_md_file
  dsimp only
  split <;> split <;> rfl

theorem mem_iter_public_none (vault : List VaultFile) (ignored : List String)
    (hd wbu : String) (f : VaultFile) (pp bu : String) :
    (f, pp, bu) ∈ iter_public_md_files vault ignored hd wbu none →
    fmTruthy f.meta.public = true := by
  intro h
  simp only [iter_public_md_files, List.mem_filterMap] at h
  obtain ⟨g, _, hsome⟩ := h
  by_cases h1 : is_path_ignored g.dirParts ignored = true
  · rw [if_pos h1] at hsome
    exact absurd hsome (by simp)
  · rw [if_neg h1] at hsome
    rw [if_neg (by simp [spTruthy])] at hsome
    by_cases h2 : fmTruthy g.meta.public = true
    · rw [if_neg (by simp [h2])] at hsome
      injection hsome with h3
      have hgf : g = f := congrArg Prod.fst h3
      rw [← hgf]
      exact h2
    · rw [if_pos (by simp [spTruthy, h2])] at hsome
      exact absurd hsome (by simp)

theorem forestHasPrivate_happend (pub : List String) (wp : String) :
    ∀ (f g : HtmlForest),
    forestHasPrivate pub wp (happend f g) =
      (forestHasPrivate pub wp f || forestHasPrivate pub wp g)
  | .nil, g => by simp [happend, forestHasPrivate]
  | .cons h t, g => by
    rw [happend, forestHasPrivate, forestHasPrivate,
      forestHasPrivate_happend pub wp t g, Bool.or_assoc]

mutual
theorem unwrapNode_no_private (pub : List String) (wp : String) :
    ∀ (n : HtmlNode), forestHasPrivate pub wp (unwrapNode pub wp n).1 = false
  | .text s => by simp [unwrapNode, forestHasPrivate, nodeHasPrivate]
  | .elem tag classes href ch => by
    have ih := unwrapForest_no_private pub wp ch
    cases hpriv : isPrivateWikilink pub wp tag classes href with
    | true => simp [unwrapNode, hpriv, ih]
    | false => simp [unwrapNode, hpriv, forestHasPrivate, nodeHasPrivate, ih]
theorem unwrapForest_no_private (pub : List String) (wp : String) :
    ∀ (f : HtmlForest), forestHasPrivate pub wp (unwrapForest pub wp f).1 = false
  | .nil => by simp [unwrapForest, forestHasPrivate]
  | .cons h t => by
    have ih1 := unwrapNode_no_private pub wp h
    have ih2 := unwrapForest_no_private pub wp t
    simp [unwrapForest, forestHasPrivate_happend, ih1, ih2]
end

theorem forestText_happend :
    ∀ (f g : HtmlForest), forestText (happend f g) = forestText f ++ forestText g
  | .nil, g => by simp [happend, forestText]
  | .cons h t, g => by
    rw [happend, forestText, forestText, forestText_happend t g,
      String.append_assoc]

mutual
theorem unwrapNode_text (pub : List String) (wp : String) :
    ∀ (n : HtmlNode), forestText (unwrapNode pub wp n).1 = nodeText n
  | .text s => by simp [unwrapNode, forestText, nodeText]
  | .elem tag classes href ch => by
    have ih := unwrapForest_text pub wp ch
    cases hpriv : isPrivateWikilink pub wp tag classes href with
    | true => simp [unwrapNode, hpriv, ih, nodeText]
    | false => simp [unwrapNode, hpriv, forestText, nodeText, ih]
theorem unwrapForest_text (pub : List String) (wp : String) :
    ∀ (f : HtmlForest), forestText (unwrapForest pub wp f).1 = forestText f
  | .nil => by simp [unwrapForest, forestText]
  | .cons h t => by
    have ih1 := unwrapNode_text pub wp h
    have ih2 := unwrapForest_text pub wp t
    simp [unwrapForest, forestText_happend, forestText, ih1, ih2]
end

mutual
theorem cleanNode_hasPrivate (pub : List String) (wp : String) :
    ∀ (parent : Option String) (n : HtmlNode),
    nodeHasPrivate pub wp (cleanNode parent n).1 = nodeHasPrivate pub wp n
  | parent, .text s => by
    unfold cleanNode
    split
    · simp [nodeHasPrivate]
    · split <;> simp [nodeHasPrivate]
  | parent, .elem tag classes href ch => by
    have ih := cleanForest_hasPrivate pub wp (some tag) ch
    simp [cleanNode, nodeHasPrivate, ih]
theorem cleanForest_hasPrivate (pub : List String) (wp : String) :
    ∀ (parent : Option String) (f : HtmlForest),
    forestHasPrivate pub wp (cleanForest parent f).1 = forestHasPrivate pub wp f
  | parent, .nil => by simp [cleanForest, forestHasPrivate]
  | parent, .cons h t => by
    have ih1 := cleanNode_hasPrivate pub wp parent h
    have ih2 := cleanForest_hasPrivate pub wp parent t
    simp [cleanForest, forestHasPrivate, ih1, ih2]
end

/-- C7: (a) in a full (non-single-page) build every page that reaches
`public_pages` has truthy `public` frontmatter — a page with falsy
`public` is never added — and every sitemap line and search entry is
derived from a page of `public_pages`; (b) `sanitize_wikilinks` leaves
no private-wikilink anchor anywhere in the output document, and the
unwrap pass preserves the text content of the document (anchors are
replaced by their inner markup, never dropped). -/
theorem privacy_propagation :
    (∀ (render : String → String → String) (fs : FileSys)
       (vault : List VaultFile) (ignored : List String)
       (hd wbu wd bd : String) (cache : String → Option Int)
       (force inc : Bool) (p : Page),
      p ∈ (process_markdown_files render fs vault ignored hd wbu wd bd cache
        force inc none).1 → fmTruthy p.meta.public = true) ∧
    (∀ (pages : List Page) (base u : String),
      u ∈ generate_sitemap pages base → ∃ p ∈ pages, u = base ++ p.path ++ "/") ∧
    (∀ (pages : List Page) (base : String) (e : SearchEntry),
      e ∈ generate_search_index pages base →
      ∃ p ∈ pages, e.path = p.path ∧ e.url = base ++ p.path ++ "/") ∧
    (∀ (pub : List String) (wp : String) (doc : HtmlForest),
      forestHasPrivate pub wp (sanitize_wikilinks doc pub wp).1 = false ∧
      forestText (unwrapForest pub wp doc).1 = forestText doc) := by
  refine ⟨?_, ?_, ?_, ?_⟩
  · intro render fs vault ignored hd wbu wd bd cache force inc p hp
    simp only [process_markdown_files, List.mem_map] at hp
    obtain ⟨e, he, rfl⟩ := hp
    obtain ⟨f, pp, bu⟩ := e
    rw [process_single_meta]
    exact mem_iter_public_none vault ignored hd wbu f pp bu he
  · intro pages base u hu
    simp only [generate_sitemap, List.mem_map] at hu
    obtain ⟨p, hp, rfl⟩ := hu
    exact ⟨p, hp, rfl⟩
  · intro pages base e he
    simp only [generate_search_index, List.mem_map] at he
    obtain ⟨p, hp, rfl⟩ := he
    exact ⟨p, hp, rfl, rfl⟩
  · intro pub wp doc
    refine ⟨?_, unwrapForest_text pub wp doc⟩
    show forestHasPrivate pub wp
      (cleanForest none (unwrapForest pub wp doc).1).1 = false
    rw [cleanForest_hasPrivate]
    exact unwrapForest_no_private pub wp doc

/-! ## The empty-prefix behaviour of `extract_wiki_path` -/

theorem ewpc_pos (c : Char) (cs' : List Char) (hc : c ≠ '/')
    (hl : (c :: cs').getLast? ≠ some '/') :
    extract_wiki_path_chars ('/' :: c :: cs') [] = some (c :: cs') ∧
    extract_wiki_path_chars ('/' :: ((c :: cs') ++ ['/'])) [] = some (c :: cs') := by
  have hc' : ¬ ('/' = c) := fun h => hc h.symm
  constructor
  · unfold extract_wiki_path_chars
    rw [if_neg (by simp)]
    rw [if_neg (by simp)]
    rw [if_neg (by simp [chStarts, hc'])]
    cases hgl : (c :: cs').getLast? with
    | none => simp [hgl]
    | some d =>
      have hd : ¬ (d = '/') := by
        intro h
        subst h
        exact hl hgl
      simp [hgl, hd]
  · unfold extract_wiki_path_chars
    rw [if_neg (by simp)]
    rw [if_neg (by simp)]
    rw [if_neg (by simp [chStarts, hc', List.cons_append])]
    have h1 : (c :: (cs' ++ ['/'])).getLast? = some '/' :=
      List.getLast?_concat (c :: cs')
    have h2 : (c :: (cs' ++ ['/'])).dropLast = c :: cs' :=
      @List.dropLast_concat Char (c :: cs') '/' 
    simp [h1, h2]

/-- C8 (amended): with an empty wiki prefix, `extract_wiki_path` treats
every absolute path that does not start with `//` as a candidate,
regardless of how many segments it has: for any non-empty `x` that
neither starts nor ends with a slash, both `/x` and `/x/` map to
`some x` (`x` may contain interior slashes); hrefs that are empty, do
not start with `/`, start with `//`, or are the bare root `/` map to
`none`. -/
theorem extract_wiki_path_empty_spec :
    (∀ (x : String), x ≠ "" → strStarts x "/" = false → strEndsWith x "/" = false →
      extract_wiki_path ("/" ++ x) "" = some x ∧
      extract_wiki_path ("/" ++ x ++ "/") "" = some x) ∧
    (∀ (href : String), strStarts href "/" = false →
      extract_wiki_path href "" = none) ∧
    (∀ (href : String), strStarts href "//" = true →
      extract_wiki_path href "" = none) ∧
    extract_wiki_path "/" "" = none := by
  refine ⟨?_, ?_, ?_, by decide⟩
  · intro x hne hs hee
    obtain ⟨cs⟩ := x
    cases cs with
    | nil => exact absurd rfl hne
    | cons c cs' =>
      have hs' : chStarts ['/'] (c :: cs') = false := hs
      have hc : c ≠ '/' := by
        simp [chStarts] at hs'
        exact fun h => hs' (by rw [h])
      have hee' : chStarts ['/'] (c :: cs').reverse = false := hee
      have hlast : (c :: cs').getLast? ≠ some '/' := by
        rw [List.getLast?_eq_head?_reverse]
        cases hr : (c :: cs').reverse with
        | nil => simp
        | cons d rest =>
          rw [hr] at hee'
          simp [chStarts] at hee'
          simp only [List.head?]
          intro hcontra
          injection hcontra with hd
          exact hee' hd.symm
      have key := ewpc_pos c cs' hc hlast
      constructor
      · show extract_wiki_path ("/" ++ ⟨c :: cs'⟩) "" = some ⟨c :: cs'⟩
        unfold extract_wiki_path
        show (match extract_wiki_path_chars ('/' :: c :: cs') [] with
          | some p => some (String.mk p)
          | none => none) = some ⟨c :: cs'⟩
        rw [key.1]
      · show extract_wiki_path ("/" ++ ⟨c :: cs'⟩ ++ "/") "" = some ⟨c :: cs'⟩
        unfold extract_wiki_path
        show (match extract_wiki_path_chars ('/' :: ((c :: cs') ++ ['/'])) [] with
          | some p => some (String.mk p)
          | none => none) = some ⟨c :: cs'⟩
        rw [key.2]
  · intro href hs
    obtain ⟨cs⟩ := href
    cases cs with
    | nil => rfl
    | cons c cs' =>
      have hs' : chStarts ['/'] (c :: cs') = false := hs
      have hc : ¬ ('/' = c) := by
        simp [chStarts] at hs'
        exact hs'
      unfold extract_wiki_path
      have hchars : extract_wiki_path_chars (c :: cs') [] = none := by
        unfold extract_wiki_path_chars
        rw [if_neg (by simp)]
        rw [if_neg (by simp)]
        rw [if_pos (by simp [chStarts, hc])]
      show (match extract_wiki_path_chars (c :: cs') [] with
        | some p => some (String.mk p)
        | none => none) = none
      rw [hchars]
  · intro href hs
    obtain ⟨cs⟩ := href
    have hs' : chStarts ['/', '/'] cs = true := hs
    cases cs with
    | nil => simp [chStarts] at hs'
    | cons c cs2 =>
      cases cs2 with
      | nil =>
        simp [chStarts] at hs'
      | cons d rest =>
        simp only [chStarts] at hs'
        have hcd : c = '/' ∧ d = '/' := by
          simp at hs'
          exact ⟨hs'.1.symm, hs'.2.symm⟩
        obtain ⟨rfl, rfl⟩ := hcd
        unfold extract_wiki_path
        have hchars : extract_wiki_path_chars ('/' :: '/' :: rest) [] = none := by
          unfold extract_wiki_path_chars
          rw [if_neg (by simp)]
          rw [if_neg (by simp)]
          rw [if_pos (by simp [chStarts])]
        show (match extract_wiki_path_chars ('/' :: '/' :: rest) [] with
          | some p => some (String.mk p)
          | none => none) = none
        rw [hchars]

/-- C8 (counterexample): with the empty wiki prefix the code accepts
the two-segment href "/a/b" and returns the multi-segment path "a/b",
where the claim requires `None` for every href that is not a
single-level absolute path. -/
theorem extract_wiki_path_accepts_multisegment :
    extract_wiki_path "/a/b" "" = some "a/b" := by decide

/-- C10: sitemap lines and search-entry urls are always the wiki base
url followed by the page path and a trailing slash (for every page of
`public_pages`, via `generate_site_files`); a homepage-section page's
own `url` is the root base url plus its path; and with a non-empty wiki
prefix those two always differ, so homepage content is listed in
sitemap/search under the wiki prefix although it is emitted at the site
root. -/
theorem site_urls_use_wiki_base :
    (∀ (pages : List Page) (w : String),
      generate_sitemap pages (base_urls_wiki w) =
        pages.map (fun p => base_urls_wiki w ++ p.path ++ "/") ∧
      (generate_search_index pages (base_urls_wiki w)).map SearchEntry.url =
        pages.map (fun p => base_urls_wiki w ++ p.path ++ "/") ∧
      generate_site_files pages w =
        (generate_search_index pages (base_urls_wiki w),
         generate_sitemap pages (base_urls_wiki w))) ∧
    (∀ (render : String → String → String) (pp : String) (meta : Meta)
       (md : String) (rh : Bool) (fm : Option Int),
      (create_page_object render pp meta md rh fm "/").url = "/" ++ pp ++ "/") ∧
    (∀ (w p : String), w ≠ "" →
      base_urls_wiki w ++ p ++ "/" ≠ "/" ++ p ++ "/") := by
  refine ⟨?_, ?_, ?_⟩
  · intro pages w
    refine ⟨rfl, ?_, rfl⟩
    simp [generate_search_index, List.map_map, Function.comp]
  · intro render pp meta md rh fm
    rfl
  · intro w p hw heq
    have hbw : base_urls_wiki w = "/" ++ w ++ "/" := by
      unfold base_urls_wiki
      rw [if_neg hw]
    rw [hbw] at heq
    have hlen := congrArg String.length heq
    simp only [String.length_append,
      (rfl : ("/" : String).length = 1)] at hlen
    have hw0 : w.length ≠ 0 := by
      intro h0
      apply hw
      obtain ⟨data⟩ := w
      cases data with
      | nil => rfl
      | cons a as => simp [String.length] at h0
    omega

end Foliate
